import Mathlib

/-!
Verification of the concurrency-and-caching core of the appleseed progressive
renderer: the budgeted sample counter, the interleaved Halton sequence
indexing of `SampleGenerator`, the `store_samples` commit path, and the
`TextureStore::TileSwapper` load/unload machinery with its memory accounting
and color-space normalization.

Sources embedded:
- renderer/kernel/rendering/progressive/samplegenerator.cpp
  (`SampleGenerator` and the `TextureStore` / `TileSwapper` implementation)
- the `Renderer_Kernel_Rendering_Progressive_SampleGenerator` benchmark
  (`SampleGeneratorJob`, `BenchmarkConcurrentSampleGeneration`).

Concurrency is modelled by arbitrary sequential interleavings: each atomic
operation of the source is one step, and theorems quantify over all
interleaving orders (lists of operations).

Channel values are carried by a type parameter `α` (the source uses `float`;
no claim under proof depends on the numeric semantics of a channel value),
and the two scalar/primary color transforms implemented outside the sources
(`foundation`'s `srgb_to_linear` scalar inverse EOTF and the CIE XYZ to
linear-RGB primary matrix) are likewise parameters.
-/

namespace Appleseed

/-! ## Definitions: SampleCounter (the spec's WorkCounter)

Modelled from the spec: `SampleCounter`
(renderer/kernel/rendering/progressive/samplecounter.h) is not among the
provided sources; only its callers (`SampleGenerator::store_samples` and the
benchmark's `SampleGeneratorJob::execute`) are.  Per the spec (sections 3 and
4.1), `reserve(k)` atomically returns `min(k, remaining)` and subtracts the
grant from the remaining budget; once the budget is exhausted every call
returns 0. -/

/-- Modelled from the spec: one atomic `SampleCounter::reserve` call on a
counter holding `remaining` budget.  Returns the grant `min k remaining`
together with the new remaining budget. -/
def SampleCounter.reserve (remaining k : Nat) : Nat × Nat :=
  (min k remaining, remaining - min k remaining)

/-- The grants returned by a sequence of `reserve` calls (one entry per call,
in interleaving order) starting from a given remaining budget. -/
def SampleCounter.grants (remaining : Nat) : List Nat → List Nat
  | [] => []
  | k :: ks =>
      (SampleCounter.reserve remaining k).1 ::
        SampleCounter.grants (SampleCounter.reserve remaining k).2 ks

/-- The remaining budget after a sequence of `reserve` calls. -/
def SampleCounter.remainingAfter (remaining : Nat) : List Nat → Nat
  | [] => remaining
  | k :: ks => SampleCounter.remainingAfter (SampleCounter.reserve remaining k).2 ks

/-! ## Definitions: SampleGenerator sequence indexing

From `SampleGenerator` in samplegenerator.cpp.  The constructor sets
`m_stride = (generator_count - 1) * SampleBatchSize` and
`m_sequence_index = generator_index * SampleBatchSize`;
`generate_sample_vector` advances `m_sequence_index` by one per sample and by
an additional `m_stride` after every `SampleBatchSize` samples.  The batch
size is a constant (67) in the source; it is kept as a parameter `B` here and
the witness instantiates it at `SampleBatchSize`. -/

/-- `const size_t SampleBatchSize = 67;` in samplegenerator.cpp. -/
def SampleBatchSize : Nat := 67

/-- `const size_t AdditionalSampleCount = 4096;` in samplegenerator.cpp. -/
def AdditionalSampleCount : Nat := 4096

/-- `const size_t AdditionalSampleBatchSize = 64;` in samplegenerator.cpp. -/
def AdditionalSampleBatchSize : Nat := 64

/-- The sequencing state of one `SampleGenerator`: the fields `m_stride`,
`m_sequence_index` and `m_current_batch_size` of the source class. -/
structure GenState where
  m_stride : Nat
  m_sequence_index : Nat
  m_current_batch_size : Nat
deriving DecidableEq

/-- The `SampleGenerator` constructor, restricted to the sequencing fields:
stride `(generator_count - 1) * B`, initial index `generator_index * B`,
batch counter 0 (with `B` the source's `SampleBatchSize`). -/
def SampleGenerator.init (B generator_index generator_count : Nat) : GenState :=
  { m_stride := (generator_count - 1) * B
    m_sequence_index := generator_index * B
    m_current_batch_size := 0 }

/-- One iteration of the loop body of
`SampleGenerator::generate_sample_vector`: `++m_sequence_index;
if (++m_current_batch_size == SampleBatchSize) { m_current_batch_size = 0;
m_sequence_index += m_stride; }`. -/
def SampleGenerator.step (B : Nat) (s : GenState) : GenState :=
  if s.m_current_batch_size + 1 = B then
    { m_stride := s.m_stride
      m_sequence_index := s.m_sequence_index + 1 + s.m_stride
      m_current_batch_size := 0 }
  else
    { m_stride := s.m_stride
      m_sequence_index := s.m_sequence_index + 1
      m_current_batch_size := s.m_current_batch_size + 1 }

/-- The sequence indices consumed by `n` successive samples of
`generate_sample_vector`: each sample uses the current `m_sequence_index`
(it seeds the Halton point and the sampling context) and then the state
advances by `SampleGenerator.step`. -/
def SampleGenerator.indices (B : Nat) (s : GenState) : Nat → List Nat
  | 0 => []
  | n + 1 => s.m_sequence_index :: SampleGenerator.indices B (SampleGenerator.step B s) n

/-- Closed form of generator `i`'s `j`-th sequence index:
`(i + (j / B) * G) * B + j % B`. -/
def nthIndex (G B i j : Nat) : Nat :=
  (i + j / B * G) * B + j % B

/-! ## Definitions: SampleGenerator::store_samples

`store_samples` in samplegenerator.cpp.  Line 54 is
`#undef ENABLE_SAMPLE_GENERATION_DURING_CONTENTION`, so the optimistic
`try_store_samples` attempt and the generate-while-waiting loop between
`#ifdef`/`#endif` are not compiled; the embedding keeps them behind the same
flag.  The framebuffer's lock is modelled by an oracle `tryFree` saying
whether the `k`-th `try_store_samples` call of this invocation would acquire
the lock. -/

/-- `#undef ENABLE_SAMPLE_GENERATION_DURING_CONTENTION` (samplegenerator.cpp
line 54): the contention-time sample generation path is compiled out. -/
def ENABLE_SAMPLE_GENERATION_DURING_CONTENTION : Bool := false

/-- Which of the three instrumentation counters of `store_samples` records
the eventual lock acquisition. -/
inductive CommitPath
  | immediately
  | afterAdditionalWork
  | blocking
deriving DecidableEq

/-- Result of one `store_samples` call: the acquisition path, the number of
samples committed (`m_sample_count` at commit time), the remaining budget of
the shared `SampleCounter`, and the samples generated while waiting
(`m_additional_sample_count` delta). -/
structure StoreOutcome where
  path : CommitPath
  m_sample_count : Nat
  counter_remaining : Nat
  m_additional_sample_count : Nat
deriving DecidableEq

/-- The `#ifdef`-guarded loop of `store_samples`: while below
`max_sample_count`, reserve up to `AdditionalSampleBatchSize` samples from
the shared counter (stopping when it is exhausted), generate them, and
re-attempt `try_store_samples`; the fuel argument bounds the iterations (the
loop adds at least one sample per iteration, so `AdditionalSampleCount` fuel
is never exhausted before the `sample_count < max_count` guard fails). -/
def store_samples_contention_loop (tryFree : Nat → Bool) :
    Nat → Nat → Nat → Nat → Nat → Nat → StoreOutcome
  | 0, _, sample_count, _, counter, additional =>
      ⟨CommitPath.blocking, sample_count, counter, additional⟩
  | fuel + 1, attempt, sample_count, max_count, counter, additional =>
      if sample_count < max_count then
        let granted := (SampleCounter.reserve counter AdditionalSampleBatchSize).1
        if granted = 0 then
          ⟨CommitPath.blocking, sample_count, counter, additional⟩
        else
          let sc := sample_count + granted
          let ctr := (SampleCounter.reserve counter AdditionalSampleBatchSize).2
          if tryFree attempt then
            ⟨CommitPath.afterAdditionalWork, sc, ctr, additional + granted⟩
          else
            store_samples_contention_loop tryFree fuel (attempt + 1) sc max_count ctr
              (additional + granted)
      else
        ⟨CommitPath.blocking, sample_count, counter, additional⟩

/-- `SampleGenerator::store_samples`: with the contention flag undefined the
whole function body is the blocking `framebuffer.store_samples` call plus
`++m_pfb_lock_acquired_after_blocking`; with the flag defined it would first
attempt `try_store_samples` and fall into the contention loop. -/
def store_samples (tryFree : Nat → Bool) (sample_count counter : Nat) : StoreOutcome :=
  if ENABLE_SAMPLE_GENERATION_DURING_CONTENTION then
    if tryFree 0 then ⟨CommitPath.immediately, sample_count, counter, 0⟩
    else
      store_samples_contention_loop tryFree AdditionalSampleCount 1 sample_count
        (sample_count + AdditionalSampleCount) counter 0
  else ⟨CommitPath.blocking, sample_count, counter, 0⟩

/-! ## Definitions: TextureStore / TileSwapper

From the `TextureStore` implementation in samplegenerator.cpp. -/

/-- Pixel data of one texture tile.  The source's conversion helpers assert
`channel_count == 3 || channel_count == 4`; a tile is either a list of RGB
triples or of RGBA quadruples. -/
inductive TilePixels (α : Type)
  | rgb (ps : List (α × α × α))
  | rgba (ps : List (α × α × α × α))
deriving DecidableEq

/-- One texture tile: pixel data plus the byte size reported by
`Tile::get_memory_size`. -/
structure Tile (α : Type) where
  pixels : TilePixels α
  memory_size : Nat
deriving DecidableEq

/-- The color-space tag of a texture (`foundation`'s `ColorSpace` enum).
`load` handles `ColorSpaceLinearRGB`, `ColorSpaceSRGB` and
`ColorSpaceCIEXYZ`; `spectral` stands for every remaining tag of the source
enum, which falls into the `assert_otherwise` branch. -/
inductive ColorSpace
  | linearRGB
  | srgb
  | ciexyz
  | spectral
deriving DecidableEq

/-- The color-space tags `TileSwapper::load` has a conversion for. -/
def valid_color_space (cs : ColorSpace) : Prop :=
  cs = ColorSpace.linearRGB ∨ cs = ColorSpace.srgb ∨ cs = ColorSpace.ciexyz

instance (cs : ColorSpace) : Decidable (valid_color_space cs) := by
  unfold valid_color_space
  infer_instance

/-- A texture resource, as consumed by the swapper: its color space and its
`load_tile` operation. -/
structure Texture (α : Type) where
  color_space : ColorSpace
  load_tile : Nat → Nat → Tile α

/-- The texture containers a `TileKey` can resolve to: the scene's own
container or a gathered assembly's container, each indexed by texture
`UniqueID` (`get_by_uid` is modelled as a total lookup, as the source
dereferences the result unconditionally). -/
structure Scene (α : Type) where
  scene_textures : Nat → Texture α
  assembly_textures : Nat → Nat → Texture α

/-- A tile cache key.  `m_assembly_uid = none` models the `UniqueID(~0)`
sentinel selecting the scene's own texture container. -/
structure TileKey where
  m_assembly_uid : Option Nat
  m_texture_uid : Nat
  m_tile_x : Nat
  m_tile_y : Nat
deriving DecidableEq

/-- The container dispatch at the top of `TileSwapper::load` and
`TileSwapper::unload`:
`key.m_assembly_uid == UniqueID(~0) ? m_scene.textures() :
m_assemblies[key.m_assembly_uid]->textures()`, followed by
`textures.get_by_uid(key.m_texture_uid)`. -/
def fetch_texture {α : Type} (scene : Scene α) (key : TileKey) : Texture α :=
  match key.m_assembly_uid with
  | none => scene.scene_textures key.m_texture_uid
  | some uid => scene.assembly_textures uid key.m_texture_uid

/-- A cache record: the owned tile payload and the atomic pin count
`m_owners`. -/
structure TileRecord (α : Type) where
  m_tile : Tile α
  m_owners : Nat
deriving DecidableEq

/-- `TileSwapper::Parameters`: the `max_size` memory limit (default
`256 * 1024 * 1024`) and the three diagnostic toggles. -/
structure Parameters where
  m_memory_limit : Nat
  m_track_tile_loading : Bool
  m_track_tile_unloading : Bool
  m_track_store_size : Bool
deriving DecidableEq

/-- The mutable accounting state of the swapper: `m_memory_size` and
`m_peak_memory_size`. -/
structure TileSwapperState where
  m_memory_size : Nat
  m_peak_memory_size : Nat
deriving DecidableEq

/-- The diagnostic messages `load`/`unload` can emit through
`RENDERER_LOG_DEBUG`. -/
inductive LogEvent
  | loadingTile
  | unloadingTile
  | storeSizeAboveCapacity
  | storeSizeBelowCapacity
deriving DecidableEq

/-- Apply a scalar transform to the three color channels of an RGB triple —
modelled from the spec: `foundation`'s `srgb_to_linear_rgb(Color3f)` is not
among the provided sources; per the spec (section 4.5) it applies the scalar
inverse sRGB EOTF to each channel. -/
def mapTriple {α : Type} (f : α → α) (c : α × α × α) : α × α × α :=
  (f c.1, f c.2.1, f c.2.2)

/-- Apply an RGB-triple transform to the color channels of an RGBA pixel,
leaving the fourth (alpha) channel unchanged — the
`color.rgb() = convert(color.rgb())` pattern of the source. -/
def onRGB {α : Type} (g : α × α × α → α × α × α) (c : α × α × α × α) : α × α × α × α :=
  ((g (c.1, c.2.1, c.2.2.1)).1, (g (c.1, c.2.1, c.2.2.1)).2.1,
    (g (c.1, c.2.1, c.2.2.1)).2.2, c.2.2.2)

/-- `convert_tile_srgb_to_linear_rgb`: for a 3-channel tile apply
`srgb_to_linear_rgb` to every pixel; for a 4-channel tile apply it to the RGB
part of every pixel, leaving alpha untouched.  `srgbToLinear` stands for the
scalar `srgb_to_linear` inverse EOTF. -/
def convert_tile_srgb_to_linear_rgb {α : Type} (srgbToLinear : α → α) :
    TilePixels α → TilePixels α
  | TilePixels.rgb ps => TilePixels.rgb (ps.map (mapTriple srgbToLinear))
  | TilePixels.rgba ps => TilePixels.rgba (ps.map (onRGB (mapTriple srgbToLinear)))

/-- `convert_tile_ciexyz_to_linear_rgb`: same traversal with the CIE XYZ to
linear-RGB primary transform `ciexyzToLinear` in place of the sRGB decode. -/
def convert_tile_ciexyz_to_linear_rgb {α : Type} (ciexyzToLinear : α × α × α → α × α × α) :
    TilePixels α → TilePixels α
  | TilePixels.rgb ps => TilePixels.rgb (ps.map ciexyzToLinear)
  | TilePixels.rgba ps => TilePixels.rgba (ps.map (onRGB ciexyzToLinear))

/-- The color channels of pixel `i` of a tile, if it exists. -/
def rgbAt {α : Type} : TilePixels α → Nat → Option (α × α × α)
  | TilePixels.rgb ps, i => ps[i]?
  | TilePixels.rgba ps, i => (ps[i]?).map (fun c => (c.1, c.2.1, c.2.2.1))

/-- The alpha channel of pixel `i` of a tile, if the tile has one. -/
def alphaAt {α : Type} : TilePixels α → Nat → Option α
  | TilePixels.rgb _, _ => none
  | TilePixels.rgba ps, i => (ps[i]?).map (fun c => c.2.2.2)

/-- Result of a successful `TileSwapper::load`: the materialized record, the
updated accounting state, and the diagnostics emitted. -/
structure LoadResult (α : Type) where
  record : TileRecord α
  state : TileSwapperState
  logs : List LogEvent
deriving DecidableEq

/-- `TileSwapper::load`: resolve the key's container and texture, load the
raw tile, set `m_owners = 0`, convert the pixel data to linear RGB according
to the texture's color space (`assert_otherwise`, the fatal programming-error
branch, is `none`), add the tile's byte size to `m_memory_size`, raise
`m_peak_memory_size` to the running maximum, and emit the optional
diagnostics (`track_tile_loading`, `track_store_size`). -/
def TileSwapper.load {α : Type} (params : Parameters) (srgbToLinear : α → α)
    (ciexyzToLinear : α × α × α → α × α × α) (scene : Scene α) (key : TileKey)
    (st : TileSwapperState) : Option (LoadResult α) :=
  let texture := fetch_texture scene key
  let logs1 := if params.m_track_tile_loading then [LogEvent.loadingTile] else []
  let tile := texture.load_tile key.m_tile_x key.m_tile_y
  let converted : Option (TilePixels α) :=
    match texture.color_space with
    | ColorSpace.linearRGB => some tile.pixels
    | ColorSpace.srgb => some (convert_tile_srgb_to_linear_rgb srgbToLinear tile.pixels)
    | ColorSpace.ciexyz => some (convert_tile_ciexyz_to_linear_rgb ciexyzToLinear tile.pixels)
    | ColorSpace.spectral => none
  match converted with
  | none => none
  | some px =>
      let tile2 : Tile α := { pixels := px, memory_size := tile.memory_size }
      let mem := st.m_memory_size + tile2.memory_size
      let st2 : TileSwapperState :=
        { m_memory_size := mem
          m_peak_memory_size := max st.m_peak_memory_size mem }
      let logs2 :=
        if params.m_track_store_size then
          [if mem > params.m_memory_limit then LogEvent.storeSizeAboveCapacity
            else LogEvent.storeSizeBelowCapacity]
        else []
      some { record := { m_tile := tile2, m_owners := 0 }, state := st2
             logs := logs1 ++ logs2 }

/-- Result of a `TileSwapper::unload` attempt: the boolean outcome, the
accounting state, the diagnostics, and the payload handed back to the owning
texture (`texture->unload_tile`), if any. -/
structure UnloadResult (α : Type) where
  ok : Bool
  state : TileSwapperState
  logs : List LogEvent
  released : Option (Tile α)
deriving DecidableEq

/-- `TileSwapper::unload`: refuse (returning `false`, changing nothing) if
`m_owners > 0`; otherwise subtract the tile's byte size from
`m_memory_size`, emit the optional `track_tile_unloading` diagnostic, hand
the payload back to the owning texture, and return `true`.  (The texture is
resolved from `key` exactly as in `load`; here that resolution only routes
the released payload, recorded in `released`.) -/
def TileSwapper.unload {α : Type} (params : Parameters) (key : TileKey)
    (record : TileRecord α) (st : TileSwapperState) : UnloadResult α :=
  if record.m_owners > 0 then
    { ok := false, state := st, logs := [], released := none }
  else
    { ok := true
      state := { m_memory_size := st.m_memory_size - record.m_tile.memory_size
                 m_peak_memory_size := st.m_peak_memory_size }
      logs := if params.m_track_tile_unloading then [LogEvent.unloadingTile] else []
      released := some record.m_tile }

/-! ## Definitions: the texture store as a transition system

Modelled from the spec where the cache is concerned: the generic
`TileCache` (foundation/utility/cache.h) is not among the provided sources.
Per the spec (section 4.5) the set of resident records is exactly the
records loaded and not yet evicted; pin (`get` on a hit) and release
(`release`) adjust `m_owners`; an eviction attempt applies
`TileSwapper::unload` and removes the record only on success.  The swapper
side of every operation is the source-faithful `TileSwapper.load` /
`TileSwapper.unload` above. -/

/-- One operation on the texture store, for an arbitrary interleaving. -/
inductive StoreOp
  | loadOp (key : TileKey)
  | pinOp (i : Nat)
  | unpinOp (i : Nat)
  | evictOp (i : Nat)
deriving DecidableEq

/-- The store state: swapper accounting plus the resident records. -/
structure TextureStoreState (α : Type) where
  swapper : TileSwapperState
  resident : List (TileKey × TileRecord α)

/-- Sum of the byte sizes of the resident tiles. -/
def residentSize {α : Type} (l : List (TileKey × TileRecord α)) : Nat :=
  (l.map (fun kr => kr.2.m_tile.memory_size)).sum

/-- Adjust the record at position `i` (used for pin and release). -/
def modifyRecordAt {α : Type} (f : TileRecord α → TileRecord α) :
    List (TileKey × TileRecord α) → Nat → List (TileKey × TileRecord α)
  | [], _ => []
  | kr :: rest, 0 => (kr.1, f kr.2) :: rest
  | kr :: rest, i + 1 => kr :: modifyRecordAt f rest i

/-- Attempt to evict the record at position `i`: apply `TileSwapper.unload`
to it and drop it from the resident list only if the unload succeeded. -/
def evictAt {α : Type} (params : Parameters) :
    List (TileKey × TileRecord α) → Nat → TileSwapperState →
      TileSwapperState × List (TileKey × TileRecord α)
  | [], _, sw => (sw, [])
  | kr :: rest, 0, sw =>
      let res := TileSwapper.unload params kr.1 kr.2 sw
      if res.ok then (res.state, rest) else (sw, kr :: rest)
  | kr :: rest, i + 1, sw =>
      let p := evictAt params rest i sw
      (p.1, kr :: p.2)

/-- One interleaving step of the texture store. -/
def storeStep {α : Type} (params : Parameters) (srgbToLinear : α → α)
    (ciexyzToLinear : α × α × α → α × α × α) (scene : Scene α)
    (st : TextureStoreState α) : StoreOp → TextureStoreState α
  | StoreOp.loadOp key =>
      match TileSwapper.load params srgbToLinear ciexyzToLinear scene key st.swapper with
      | none => st
      | some res =>
          { swapper := res.state, resident := (key, res.record) :: st.resident }
  | StoreOp.pinOp i =>
      { st with resident :=
          modifyRecordAt (fun r => { r with m_owners := r.m_owners + 1 }) st.resident i }
  | StoreOp.unpinOp i =>
      { st with resident :=
          modifyRecordAt (fun r => { r with m_owners := r.m_owners - 1 }) st.resident i }
  | StoreOp.evictOp i =>
      let p := evictAt params st.resident i st.swapper
      { swapper := p.1, resident := p.2 }

/-- Run a whole interleaving of store operations. -/
def runStore {α : Type} (params : Parameters) (srgbToLinear : α → α)
    (ciexyzToLinear : α × α × α → α × α × α) (scene : Scene α)
    (st : TextureStoreState α) : List StoreOp → TextureStoreState α
  | [] => st
  | op :: ops =>
      runStore params srgbToLinear ciexyzToLinear scene
        (storeStep params srgbToLinear ciexyzToLinear scene st op) ops

/-- The value of `m_memory_size` after each step of an interleaving. -/
def memorySizeTrace {α : Type} (params : Parameters) (srgbToLinear : α → α)
    (ciexyzToLinear : α × α × α → α × α × α) (scene : Scene α)
    (st : TextureStoreState α) : List StoreOp → List Nat
  | [] => []
  | op :: ops =>
      let st2 := storeStep params srgbToLinear ciexyzToLinear scene st op
      st2.swapper.m_memory_size ::
        memorySizeTrace params srgbToLinear ciexyzToLinear scene st2 ops

/-- The store state at construction time: nothing resident, both counters 0
(`m_memory_size(0), m_peak_memory_size(0)` in the `TileSwapper`
constructor). -/
def initialStoreState {α : Type} : TextureStoreState α :=
  { swapper := { m_memory_size := 0, m_peak_memory_size := 0 }, resident := [] }

/-! ## Definitions: TileCache lookup and TextureStore::get

Modelled from the spec: the cache lookup structure and `TextureStore::get`
are not among the provided sources.  Per the spec (section 4.5), `get` on a
hit atomically increments `m_owners` and returns the record; on a miss it
invokes `TileSwapper.load` (which, per the source, returns the record with
`m_owners = 0`), pins the new record on behalf of the requesting caller,
inserts it, and returns it. -/

/-- Association lookup in the cache. -/
def TileCache.find {α : Type} (key : TileKey) :
    List (TileKey × TileRecord α) → Option (TileRecord α)
  | [] => none
  | kr :: rest => if kr.1 = key then some kr.2 else TileCache.find key rest

/-- Modelled from the spec: `TextureStore::get`.  Returns the pinned record,
the updated cache contents and the updated swapper state, or `none` when the
miss path hits the fatal unknown-color-space branch of `load`. -/
def TextureStore.get {α : Type} (params : Parameters) (srgbToLinear : α → α)
    (ciexyzToLinear : α × α × α → α × α × α) (scene : Scene α) (key : TileKey)
    (cache : List (TileKey × TileRecord α)) (sw : TileSwapperState) :
    Option (TileRecord α × List (TileKey × TileRecord α) × TileSwapperState) :=
  match TileCache.find key cache with
  | some record =>
      let record2 := { record with m_owners := record.m_owners + 1 }
      some (record2,
        (cache.map (fun kr => if kr.1 = key then (kr.1, record2) else kr)), sw)
  | none =>
      match TileSwapper.load params srgbToLinear ciexyzToLinear scene key sw with
      | none => none
      | some res =>
          let record2 := { res.record with m_owners := res.record.m_owners + 1 }
          some (record2, (key, record2) :: cache, res.state)

/-! ## Definitions: the concurrent-generation benchmark

From the `Renderer_Kernel_Rendering_Progressive_SampleGenerator` benchmark
suite.  Its constants are `ThreadCount = 16`, `BatchSize = 1`,
`BatchCount = 16 * 512` and
`MaxSampleCount = ThreadCount * BatchSize * BatchCount`; the shared
`SampleCounter` is initialized with `MaxSampleCount`.  Each
`SampleGeneratorJob` loops: reserve `BatchSize` samples; stop on grant 0;
otherwise generate that many samples and commit them to the shared
framebuffer. -/

/-- `const size_t ThreadCount = 16;`. -/
def ThreadCount : Nat := 16

/-- `const size_t BatchSize = 1;`. -/
def BatchSize : Nat := 1

/-- `const size_t BatchCount = 16 * 512;`. -/
def BatchCount : Nat := 16 * 512

/-- `const size_t MaxSampleCount = ThreadCount * BatchSize * BatchCount;`. -/
def MaxSampleCount : Nat := ThreadCount * BatchSize * BatchCount

/-- The observable benchmark state: the shared counter's remaining budget
and the total number of samples the shared framebuffer has received. -/
structure BenchState where
  counter_remaining : Nat
  framebuffer_samples : Nat
deriving DecidableEq

/-- One loop iteration of `SampleGeneratorJob::execute` by any thread:
reserve `BatchSize` samples from the shared counter; a positive grant is
generated and committed to the shared framebuffer (the compiled
`store_samples` path commits every generated sample), a zero grant leaves
the state unchanged (the job breaks out of its loop). -/
def SampleGeneratorJob.step (st : BenchState) (thread : Nat) : BenchState :=
  let granted := (SampleCounter.reserve st.counter_remaining BatchSize).1
  { counter_remaining := (SampleCounter.reserve st.counter_remaining BatchSize).2
    framebuffer_samples := st.framebuffer_samples + granted }

/-- Run the benchmark under an arbitrary interleaving: `sched` lists, in
global order, which thread executes its next loop iteration. -/
def runBenchmark (sched : List Nat) : BenchState :=
  sched.foldl SampleGeneratorJob.step
    { counter_remaining := MaxSampleCount, framebuffer_samples := 0 }

/-! ## Definitions: concrete inputs used by witnesses -/

/-- A concrete texture over `Nat` channel values. -/
def demoTexture (cs : ColorSpace) : Texture Nat :=
  { color_space := cs
    load_tile := fun _ _ =>
      { pixels := TilePixels.rgba [(1, 2, 3, 9), (4, 5, 6, 8)], memory_size := 32 } }

/-- A concrete scene whose every container resolves to `demoTexture cs`. -/
def demoScene (cs : ColorSpace) : Scene Nat :=
  { scene_textures := fun _ => demoTexture cs
    assembly_textures := fun _ _ => demoTexture cs }

/-- A concrete tile key addressing the scene's own texture container. -/
def demoKey : TileKey :=
  { m_assembly_uid := none, m_texture_uid := 0, m_tile_x := 0, m_tile_y := 0 }

/-! ## Theorems -/

theorem SampleCounter.grants_sum_add_remainingAfter (remaining : Nat)
    (reqs : List Nat) :
    (SampleCounter.grants remaining reqs).sum
      + SampleCounter.remainingAfter remaining reqs = remaining := by
  induction reqs generalizing remaining with
  | nil => simp [SampleCounter.grants, SampleCounter.remainingAfter]
  | cons k ks ih =>
      simp only [SampleCounter.grants, SampleCounter.remainingAfter, List.sum_cons]
      have h := ih (SampleCounter.reserve remaining k).2
      simp only [SampleCounter.reserve] at h ⊢
      omega

theorem SampleCounter.grants_append (remaining : Nat) (reqs more : List Nat) :
    SampleCounter.grants remaining (reqs ++ more)
      = SampleCounter.grants remaining reqs
        ++ SampleCounter.grants (SampleCounter.remainingAfter remaining reqs) more := by
  induction reqs generalizing remaining with
  | nil => simp [SampleCounter.grants, SampleCounter.remainingAfter]
  | cons k ks ih =>
      simp [SampleCounter.grants, SampleCounter.remainingAfter, ih]

theorem SampleCounter.grants_exhausted (more : List Nat) :
    ∀ g ∈ SampleCounter.grants 0 more, g = 0 := by
  induction more with
  | nil => simp [SampleCounter.grants]
  | cons k ks ih =>
      intro g hg
      simp only [SampleCounter.grants, SampleCounter.reserve, Nat.min_zero,
        Nat.zero_sub, List.mem_cons] at hg
      rcases hg with h | h
      · exact h
      · exact ih g h

/-- C1.  `reserve`, called any number of times in any interleaving on a
counter initialized with budget `budget`, returns `min(requested, remaining)`
and subtracts the grant, so at every reachable state the sum of all grants
equals the budget minus the remaining amount; once the budget is exhausted
every subsequent call returns 0, and over a complete run (remaining budget 0)
the total granted equals exactly the budget. -/
theorem sample_counter_reserve_conserves_budget (budget : Nat) (reqs more : List Nat) :
    (∀ rem k, SampleCounter.reserve rem k
        = (min k rem, rem - min k rem)
        ∧ (SampleCounter.reserve rem k).1 + (SampleCounter.reserve rem k).2 = rem)
    ∧ (SampleCounter.grants budget reqs).sum
        + SampleCounter.remainingAfter budget reqs = budget
    ∧ (SampleCounter.remainingAfter budget reqs = 0 →
        (∀ g ∈ SampleCounter.grants
            (SampleCounter.remainingAfter budget reqs) more, g = 0)
        ∧ (SampleCounter.grants budget (reqs ++ more)).sum = budget) := by
  refine ⟨fun rem k => ⟨rfl, by simp only [SampleCounter.reserve]; omega⟩,
    SampleCounter.grants_sum_add_remainingAfter budget reqs, fun h0 => ⟨?_, ?_⟩⟩
  · rw [h0]; exact SampleCounter.grants_exhausted more
  · rw [SampleCounter.grants_append, List.sum_append]
    have h1 := SampleCounter.grants_sum_add_remainingAfter budget reqs
    have h2 : ∀ g ∈ SampleCounter.grants
        (SampleCounter.remainingAfter budget reqs) more, g = 0 := by
      rw [h0]; exact SampleCounter.grants_exhausted more
    have h3 : (SampleCounter.grants
        (SampleCounter.remainingAfter budget reqs) more).sum = 0 :=
      List.sum_eq_zero h2
    omega

/-- Witness for C1: budget 100, four callers repeatedly requesting 30 drain
the counter completely, the total granted is exactly 100, and the two
subsequent requests are granted 0. -/
theorem sample_counter_reserve_conserves_budget_witness :
    (SampleCounter.grants 100 [30, 30, 30, 30]).sum
        + SampleCounter.remainingAfter 100 [30, 30, 30, 30] = 100
    ∧ ((∀ g ∈ SampleCounter.grants
          (SampleCounter.remainingAfter 100 [30, 30, 30, 30]) [30, 5], g = 0)
        ∧ (SampleCounter.grants 100 ([30, 30, 30, 30] ++ [30, 5])).sum = 100) :=
  ⟨(sample_counter_reserve_conserves_budget 100 [30, 30, 30, 30] [30, 5]).2.1,
    (sample_counter_reserve_conserves_budget 100 [30, 30, 30, 30] [30, 5]).2.2
      (by decide)⟩

lemma SampleGenerator.step_closed (G B i j : Nat) (hG : 0 < G) (hB : 0 < B) :
    SampleGenerator.step B ⟨(G - 1) * B, nthIndex G B i j, j % B⟩
      = ⟨(G - 1) * B, nthIndex G B i (j + 1), (j + 1) % B⟩ := by
  obtain ⟨G', rfl⟩ : ∃ G', G = G' + 1 := ⟨G - 1, by omega⟩
  have hd := Nat.div_add_mod j B
  have hr : j % B < B := Nat.mod_lt _ hB
  by_cases h : j % B + 1 = B
  · have hj1 : j + 1 = B * (j / B + 1) := by
      have e : B * (j / B + 1) = B * (j / B) + B := by ring
      omega
    have hdiv : (j + 1) / B = j / B + 1 := by
      rw [hj1, Nat.mul_div_cancel_left _ hB]
    have hmod : (j + 1) % B = 0 := by
      rw [hj1]; exact Nat.mul_mod_right B _
    simp only [SampleGenerator.step, nthIndex, h, if_pos, hdiv, hmod,
      GenState.mk.injEq, Nat.add_sub_cancel, true_and, and_true]
    have e1 : (i + (j / B + 1) * (G' + 1)) * B
        = (i + j / B * (G' + 1)) * B + (G' + 1) * B := by ring
    have e2 : (G' + 1) * B = G' * B + B := by ring
    omega
  · have hrw : j + 1 = j % B + 1 + B * (j / B) := by omega
    have hdiv : (j + 1) / B = j / B := by
      rw [hrw, Nat.add_mul_div_left _ _ hB, Nat.div_eq_of_lt (by omega)]
      omega
    have hmod : (j + 1) % B = j % B + 1 := by
      rw [hrw, Nat.add_mul_mod_self_left, Nat.mod_eq_of_lt (by omega)]
    simp only [SampleGenerator.step, nthIndex, h, if_neg, hdiv, hmod,
      GenState.mk.injEq, Nat.add_sub_cancel, true_and, and_true, if_false]
    omega

lemma SampleGenerator.indices_closed (G B i : Nat) (hG : 0 < G) (hB : 0 < B) :
    ∀ n j, SampleGenerator.indices B ⟨(G - 1) * B, nthIndex G B i j, j % B⟩ n
      = (List.range' j n).map (nthIndex G B i) := by
  intro n
  induction n with
  | zero => intro j; simp [SampleGenerator.indices]
  | succ n ih =>
      intro j
      rw [List.range'_succ]
      simp only [SampleGenerator.indices, List.map_cons]
      rw [SampleGenerator.step_closed G B i j hG hB, ih (j + 1)]

lemma nthIndex_inj (G B : Nat) (hB : 0 < B) {i1 j1 i2 j2 : Nat}
    (hi1 : i1 < G) (hi2 : i2 < G)
    (h : nthIndex G B i1 j1 = nthIndex G B i2 j2) : i1 = i2 ∧ j1 = j2 := by
  have hG : 0 < G := by omega
  unfold nthIndex at h
  have hr1 : j1 % B < B := Nat.mod_lt _ hB
  have hr2 : j2 % B < B := Nat.mod_lt _ hB
  have hmod : j1 % B = j2 % B := by
    have e1 : ((i1 + j1 / B * G) * B + j1 % B) % B = j1 % B := by
      rw [Nat.mul_comm, Nat.mul_add_mod, Nat.mod_eq_of_lt hr1]
    have e2 : ((i2 + j2 / B * G) * B + j2 % B) % B = j2 % B := by
      rw [Nat.mul_comm, Nat.mul_add_mod, Nat.mod_eq_of_lt hr2]
    rw [← e1, ← e2, h]
  have hq : i1 + j1 / B * G = i2 + j2 / B * G :=
    Nat.eq_of_mul_eq_mul_right hB (by omega)
  have hi : i1 = i2 := by
    have g1 : (i1 + j1 / B * G) % G = i1 := by
      rw [Nat.add_mul_mod_self_right, Nat.mod_eq_of_lt hi1]
    have g2 : (i2 + j2 / B * G) % G = i2 := by
      rw [Nat.add_mul_mod_self_right, Nat.mod_eq_of_lt hi2]
    rw [← g1, ← g2, hq]
  have hq2 : j1 / B = j2 / B :=
    Nat.eq_of_mul_eq_mul_right hG (show j1 / B * G = j2 / B * G by omega)
  have d1 := Nat.div_add_mod j1 B
  have d2 := Nat.div_add_mod j2 B
  have e3 : B * (j1 / B) = B * (j2 / B) := by rw [hq2]
  exact ⟨hi, by omega⟩

lemma nthIndex_lt (G B T : Nat) (hB : 0 < B) {i j : Nat}
    (hi : i < G) (hj : j < T * B) :
    nthIndex G B i j < G * (T * B) := by
  have hq : j / B < T := (Nat.div_lt_iff_lt_mul hB).mpr hj
  have hr : j % B < B := Nat.mod_lt _ hB
  have h1 : i + j / B * G + 1 ≤ T * G := by
    have h2 : (j / B + 1) * G ≤ T * G :=
      Nat.mul_le_mul_right _ (Nat.succ_le_of_lt hq)
    have h3 : (j / B + 1) * G = j / B * G + G := by ring
    omega
  calc nthIndex G B i j = (i + j / B * G) * B + j % B := rfl
    _ < (i + j / B * G + 1) * B := by
        have : (i + j / B * G + 1) * B = (i + j / B * G) * B + B := by ring
        omega
    _ ≤ T * G * B := Nat.mul_le_mul_right _ h1
    _ = G * (T * B) := by ring

lemma sum_map_const {α : Type} (l : List α) (c : Nat) :
    (l.map (fun _ => c)).sum = l.length * c := by
  induction l with
  | nil => simp
  | cons a l ih => simp [ih, Nat.succ_mul]; omega

/-- C2.  For `G` generators each consuming fixed-size batches of `B` samples,
generator `i`'s sequence indices begin at `i * B`, advance by one per sample
within a batch and by an additional `(G - 1) * B` after each full batch of
`B` samples, so the union of the index lists produced by all `G` generators
over any number `T` of full batches is a permutation of the contiguous range
`0, 1, ..., G * T * B - 1`: no duplicates, no gaps. -/
theorem sample_generator_indices_partition_range (G B T : Nat) (hB : 0 < B) :
    ((List.range G).flatMap
        (fun i => SampleGenerator.indices B (SampleGenerator.init B i G) (T * B))).Perm
      (List.range (G * (T * B))) := by
  rcases G with _ | G'
  · simp [List.flatMap]
  set G : Nat := G' + 1 with hGdef
  have hG : 0 < G := Nat.succ_pos G'
  have hclosed : ∀ i, SampleGenerator.indices B (SampleGenerator.init B i G) (T * B)
      = (List.range (T * B)).map (nthIndex G B i) := by
    intro i
    have h0 : SampleGenerator.init B i G
        = ⟨(G - 1) * B, nthIndex G B i 0, 0 % B⟩ := by
      simp [SampleGenerator.init, nthIndex]
    rw [h0, SampleGenerator.indices_closed G B i hG hB (T * B) 0,
      List.range_eq_range']
  have hrw : (List.range G).flatMap
      (fun i => SampleGenerator.indices B (SampleGenerator.init B i G) (T * B))
      = (List.range G).flatMap (fun i => (List.range (T * B)).map (nthIndex G B i)) := by
    apply List.flatMap_congr
    intro i _
    exact hclosed i
  rw [hrw]
  have hnodup : ((List.range G).flatMap
      (fun i => (List.range (T * B)).map (nthIndex G B i))).Nodup := by
    rw [List.nodup_flatMap]
    constructor
    · intro i hi
      rw [List.mem_range] at hi
      refine List.Nodup.map_on ?_ (List.nodup_range _)
      intro j1 h1 j2 h2 heq
      exact (nthIndex_inj G B hB hi hi heq).2
    · rw [List.pairwise_iff_getElem]
      intro a b ha hb hab
      simp only [List.length_range] at ha hb
      simp only [List.getElem_range]
      intro x hx1 hx2
      rw [List.mem_map] at hx1 hx2
      obtain ⟨j1, hj1, e1⟩ := hx1
      obtain ⟨j2, hj2, e2⟩ := hx2
      have := (nthIndex_inj G B hB ha hb (e1.trans e2.symm)).1
      omega
  have hsub : ∀ x ∈ (List.range G).flatMap
      (fun i => (List.range (T * B)).map (nthIndex G B i)), x ∈ List.range (G * (T * B)) := by
    intro x hx
    rw [List.mem_flatMap] at hx
    obtain ⟨i, hi, hx⟩ := hx
    rw [List.mem_range] at hi
    rw [List.mem_map] at hx
    obtain ⟨j, hj, rfl⟩ := hx
    rw [List.mem_range] at hj
    rw [List.mem_range]
    exact nthIndex_lt G B T hB hi hj
  have hlen : ((List.range G).flatMap
      (fun i => (List.range (T * B)).map (nthIndex G B i))).length = G * (T * B) := by
    simp only [List.length_flatMap, Function.comp_def, List.length_map,
      List.length_range]
    rw [sum_map_const]
    simp
  apply List.perm_of_nodup_nodup_toFinset_eq hnodup (List.nodup_range _)
  apply Finset.eq_of_subset_of_card_le
  · intro x hx
    rw [List.mem_toFinset] at hx
    rw [List.mem_toFinset]
    exact hsub x hx
  · rw [List.toFinset_card_of_nodup hnodup,
      List.toFinset_card_of_nodup (List.nodup_range _), hlen, List.length_range]

/-- Witness for C2: two generators with the source's batch size
`SampleBatchSize = 67` produce, over one full batch each, together exactly
the indices `0, ..., 133` with no duplicates. -/
theorem sample_generator_indices_partition_range_witness :
    (0 < SampleBatchSize)
    ∧ ((List.range 2).flatMap
        (fun i => SampleGenerator.indices SampleBatchSize
          (SampleGenerator.init SampleBatchSize i 2) (1 * SampleBatchSize))).Perm
      (List.range (2 * (1 * SampleBatchSize))) :=
  ⟨by decide,
    sample_generator_indices_partition_range 2 SampleBatchSize 1 (by decide)⟩

/-- C3.  `TileSwapper::unload` refuses to evict a pinned record: with
`m_owners > 0` it returns `false` and changes nothing; with `m_owners = 0` it
releases the tile payload back to its owning texture, decrements
`m_memory_size` by exactly the tile's byte size (leaving the peak untouched)
and returns `true` — and a `true` result is only possible with
`m_owners = 0`.  The refusal is a boolean result, not an error. -/
theorem tile_swapper_unload_refusal_and_eviction {α : Type} (params : Parameters)
    (key : TileKey) (record : TileRecord α) (st : TileSwapperState) :
    (record.m_owners > 0 →
      TileSwapper.unload params key record st
        = { ok := false, state := st, logs := [], released := none })
    ∧ ((TileSwapper.unload params key record st).ok = true → record.m_owners = 0)
    ∧ (record.m_owners = 0 →
        (TileSwapper.unload params key record st).ok = true
        ∧ (TileSwapper.unload params key record st).released = some record.m_tile
        ∧ (TileSwapper.unload params key record st).state.m_peak_memory_size
            = st.m_peak_memory_size
        ∧ (record.m_tile.memory_size ≤ st.m_memory_size →
            (TileSwapper.unload params key record st).state.m_memory_size
              + record.m_tile.memory_size = st.m_memory_size)) := by
  by_cases h : record.m_owners > 0
  · simp [TileSwapper.unload, h]
    omega
  · have h0 : record.m_owners = 0 := by omega
    simp [TileSwapper.unload, h0]
    omega

/-- Witness for C3: an unpinned record of byte size 5 in a store holding 7
resident bytes is evicted successfully and the resident size drops to 2. -/
theorem tile_swapper_unload_refusal_and_eviction_witness :
    (TileSwapper.unload ⟨256, false, false, false⟩ demoKey
        (⟨⟨TilePixels.rgb [], 5⟩, 0⟩ : TileRecord Nat) ⟨7, 9⟩).ok = true
    ∧ (TileSwapper.unload ⟨256, false, false, false⟩ demoKey
        (⟨⟨TilePixels.rgb [], 5⟩, 0⟩ : TileRecord Nat) ⟨7, 9⟩).state.m_memory_size
        + 5 = 7 := by
  have h := (tile_swapper_unload_refusal_and_eviction ⟨256, false, false, false⟩
      demoKey (⟨⟨TilePixels.rgb [], 5⟩, 0⟩ : TileRecord Nat) ⟨7, 9⟩).2.2 rfl
  exact ⟨h.1, h.2.2.2 (by decide)⟩

/-- C6 counterexample: the claim says `store_samples` first attempts the
non-blocking `try_store_samples` and returns immediately on success; but with
`ENABLE_SAMPLE_GENERATION_DURING_CONTENTION` undefined (line 54) the compiled
code commits through the blocking call even when the framebuffer lock is
free (`tryFree` constantly true). -/
theorem store_samples_counterexample_no_try_first :
    ¬ ((store_samples (fun _ => true) 1 0).path = CommitPath.immediately)
    ∧ (store_samples (fun _ => true) 1 0).path = CommitPath.blocking := by
  have h : (store_samples (fun _ => true) 1 0).path = CommitPath.blocking := rfl
  refine ⟨?_, h⟩
  rw [h]
  decide

/-- C6 amended.  With `ENABLE_SAMPLE_GENERATION_DURING_CONTENTION` undefined
(samplegenerator.cpp line 54) `store_samples` never attempts the non-blocking
`try_store_samples`: it commits every batch through the blocking
`framebuffer.store_samples` call regardless of contention (the outcome does
not depend on the lock-availability oracle at all), counting the acquisition
under `m_pfb_lock_acquired_after_blocking` and generating no additional
samples. -/
theorem store_samples_always_blocking (tryFree1 tryFree2 : Nat → Bool)
    (sample_count counter : Nat) :
    store_samples tryFree1 sample_count counter
        = ⟨CommitPath.blocking, sample_count, counter, 0⟩
    ∧ store_samples tryFree1 sample_count counter
        = store_samples tryFree2 sample_count counter := by
  have h1 : store_samples tryFree1 sample_count counter
      = ⟨CommitPath.blocking, sample_count, counter, 0⟩ := rfl
  have h2 : store_samples tryFree2 sample_count counter
      = ⟨CommitPath.blocking, sample_count, counter, 0⟩ := rfl
  exact ⟨h1, h1.trans h2.symm⟩

/-- C9 counterexample: the benchmark fixture's budget
`MaxSampleCount = ThreadCount * BatchSize * BatchCount` with
`BatchCount = 16 * 512` is 131072, not 8192. -/
theorem benchmark_budget_is_131072_not_8192 :
    MaxSampleCount = 131072 ∧ MaxSampleCount ≠ 8192 := by
  constructor <;> decide

lemma benchmark_fold_conserves (sched : List Nat) :
    ∀ st : BenchState,
      (sched.foldl SampleGeneratorJob.step st).framebuffer_samples
          + (sched.foldl SampleGeneratorJob.step st).counter_remaining
        = st.framebuffer_samples + st.counter_remaining := by
  induction sched with
  | nil => intro st; rfl
  | cons t ts ih =>
      intro st
      rw [List.foldl_cons, ih]
      simp only [SampleGeneratorJob.step, SampleCounter.reserve, BatchSize]
      omega

lemma benchmark_replicate_drains :
    ∀ (n : Nat) (st : BenchState) (t : Nat),
      ((List.replicate n t).foldl SampleGeneratorJob.step st).counter_remaining
        = st.counter_remaining - n := by
  intro n
  induction n with
  | zero => intro st t; simp
  | succ n ih =>
      intro st t
      rw [List.replicate_succ, List.foldl_cons, ih]
      simp only [SampleGeneratorJob.step, SampleCounter.reserve, BatchSize]
      omega

/-- C9 amended.  In the benchmark, 16 worker jobs draining the shared
counter in batches of `BatchSize = 1` under any interleaving satisfy:
committed samples plus remaining budget always equal
`MaxSampleCount = ThreadCount * BatchSize * BatchCount`, and once the shared
counter is drained the framebuffer has observed exactly `MaxSampleCount`
(that is 131072, not the 8192 the claim states), regardless of commit
interleaving order. -/
theorem benchmark_observed_samples_equal_budget (sched : List Nat) :
    (runBenchmark sched).framebuffer_samples + (runBenchmark sched).counter_remaining
        = MaxSampleCount
    ∧ ((runBenchmark sched).counter_remaining = 0 →
        (runBenchmark sched).framebuffer_samples = MaxSampleCount
        ∧ MaxSampleCount = 131072) := by
  have h : (runBenchmark sched).framebuffer_samples
      + (runBenchmark sched).counter_remaining = 0 + MaxSampleCount :=
    benchmark_fold_conserves sched ⟨MaxSampleCount, 0⟩
  refine ⟨by omega, fun h0 => ⟨by omega, by decide⟩⟩

/-- Witness for C9: a long enough schedule (131072 iterations) drains the
counter and the framebuffer has then observed exactly `MaxSampleCount`
samples. -/
theorem benchmark_observed_samples_equal_budget_witness :
    (runBenchmark (List.replicate MaxSampleCount 0)).counter_remaining = 0
    ∧ (runBenchmark (List.replicate MaxSampleCount 0)).framebuffer_samples
        = MaxSampleCount := by
  have hc : (runBenchmark (List.replicate MaxSampleCount 0)).counter_remaining = 0 := by
    have h : (runBenchmark (List.replicate MaxSampleCount 0)).counter_remaining
        = MaxSampleCount - MaxSampleCount :=
      benchmark_replicate_drains MaxSampleCount ⟨MaxSampleCount, 0⟩ 0
    rw [h, Nat.sub_self]
  exact ⟨hc, ((benchmark_observed_samples_equal_budget
      (List.replicate MaxSampleCount 0)).2 hc).1⟩

lemma TileSwapper.load_some_spec {α : Type} (params : Parameters) (f : α → α)
    (g : α × α × α → α × α × α) (scene : Scene α) (key : TileKey)
    (st : TileSwapperState) (res : LoadResult α)
    (h : TileSwapper.load params f g scene key st = some res) :
    res.record.m_owners = 0
    ∧ res.record.m_tile.memory_size
        = ((fetch_texture scene key).load_tile key.m_tile_x key.m_tile_y).memory_size
    ∧ res.state.m_memory_size = st.m_memory_size + res.record.m_tile.memory_size
    ∧ res.state.m_peak_memory_size
        = max st.m_peak_memory_size res.state.m_memory_size := by
  cases hcs : (fetch_texture scene key).color_space
  case linearRGB =>
      simp only [TileSwapper.load, hcs, Option.some.injEq] at h
      subst h
      exact ⟨rfl, rfl, rfl, rfl⟩
  case srgb =>
      simp only [TileSwapper.load, hcs, Option.some.injEq] at h
      subst h
      exact ⟨rfl, rfl, rfl, rfl⟩
  case ciexyz =>
      simp only [TileSwapper.load, hcs, Option.some.injEq] at h
      subst h
      exact ⟨rfl, rfl, rfl, rfl⟩
  case spectral =>
      simp only [TileSwapper.load, hcs] at h
      exact Option.noConfusion h

lemma TileSwapper.load_isSome_of_valid {α : Type} (params : Parameters) (f : α → α)
    (g : α × α × α → α × α × α) (scene : Scene α) (key : TileKey)
    (st : TileSwapperState)
    (h : valid_color_space (fetch_texture scene key).color_space) :
    (TileSwapper.load params f g scene key st).isSome = true := by
  rcases h with hcs | hcs | hcs <;> simp [TileSwapper.load, hcs]

/-- C8.  `TileSwapper::load` succeeds exactly on the color-space tags it has
a conversion for (linear RGB, sRGB, CIE XYZ); any other tag hits the
`assert_otherwise` fatal programming-error branch: the load hard-fails and
applies no conversion.  Under the precondition that texture resources carry
a valid tag, the fatal branch is unreachable. -/
theorem tile_swapper_load_fatal_on_unknown_color_space {α : Type}
    (params : Parameters) (f : α → α) (g : α × α × α → α × α × α)
    (scene : Scene α) (key : TileKey) (st : TileSwapperState) :
    ((TileSwapper.load params f g scene key st).isSome = true
      ↔ valid_color_space (fetch_texture scene key).color_space)
    ∧ (¬ valid_color_space (fetch_texture scene key).color_space →
        TileSwapper.load params f g scene key st = none) := by
  cases hcs : (fetch_texture scene key).color_space <;>
    simp [TileSwapper.load, hcs, valid_color_space]

/-- Witness for C8: a texture tagged with the unrecognized (spectral) tag
makes `load` fail with no conversion applied. -/
theorem tile_swapper_load_fatal_on_unknown_color_space_witness :
    ¬ valid_color_space (fetch_texture (demoScene ColorSpace.spectral) demoKey).color_space
    ∧ TileSwapper.load ⟨256, false, false, false⟩ (id : Nat → Nat) id
        (demoScene ColorSpace.spectral) demoKey ⟨0, 0⟩ = none := by
  have hn : ¬ valid_color_space
      (fetch_texture (demoScene ColorSpace.spectral) demoKey).color_space := by
    simp [demoScene, demoTexture, demoKey, fetch_texture, valid_color_space]
  exact ⟨hn, (tile_swapper_load_fatal_on_unknown_color_space ⟨256, false, false, false⟩
    (id : Nat → Nat) id (demoScene ColorSpace.spectral) demoKey ⟨0, 0⟩).2 hn⟩

lemma rgbAt_convert_srgb {α : Type} (f : α → α) (px : TilePixels α) (i : Nat) :
    rgbAt (convert_tile_srgb_to_linear_rgb f px) i
      = (rgbAt px i).map (mapTriple f) := by
  cases px with
  | rgb ps => simp [convert_tile_srgb_to_linear_rgb, rgbAt, List.getElem?_map]
  | rgba ps =>
      simp only [convert_tile_srgb_to_linear_rgb, rgbAt, List.getElem?_map]
      cases ps[i]? <;> simp [onRGB, mapTriple]

lemma alphaAt_convert_srgb {α : Type} (f : α → α) (px : TilePixels α) (i : Nat) :
    alphaAt (convert_tile_srgb_to_linear_rgb f px) i = alphaAt px i := by
  cases px with
  | rgb ps => simp [convert_tile_srgb_to_linear_rgb, alphaAt]
  | rgba ps =>
      simp only [convert_tile_srgb_to_linear_rgb, alphaAt, List.getElem?_map]
      cases ps[i]? <;> simp [onRGB]

/-- C7.  When a texture's source color space is sRGB, `TileSwapper::load`
applies the inverse sRGB EOTF (the scalar decode `f`) to each color channel
of every pixel of the loaded tile and leaves the alpha channel, when present,
unmodified; when the source color space is linear, the pixel data is left
unchanged. -/
theorem tile_swapper_load_srgb_decodes_rgb_preserves_alpha {α : Type}
    (params : Parameters) (f : α → α) (g : α × α × α → α × α × α)
    (scene : Scene α) (key : TileKey) (st : TileSwapperState) :
    ((fetch_texture scene key).color_space = ColorSpace.srgb →
      ∃ res, TileSwapper.load params f g scene key st = some res
        ∧ (∀ i, rgbAt res.record.m_tile.pixels i
            = (rgbAt ((fetch_texture scene key).load_tile key.m_tile_x
                key.m_tile_y).pixels i).map (mapTriple f))
        ∧ (∀ i, alphaAt res.record.m_tile.pixels i
            = alphaAt ((fetch_texture scene key).load_tile key.m_tile_x
                key.m_tile_y).pixels i))
    ∧ ((fetch_texture scene key).color_space = ColorSpace.linearRGB →
      ∃ res, TileSwapper.load params f g scene key st = some res
        ∧ res.record.m_tile.pixels
            = ((fetch_texture scene key).load_tile key.m_tile_x
                key.m_tile_y).pixels) := by
  constructor
  · intro hcs
    cases hload : TileSwapper.load params f g scene key st with
    | none =>
        exfalso
        have hs := TileSwapper.load_isSome_of_valid params f g scene key st
          (Or.inr (Or.inl hcs))
        rw [hload] at hs
        simp at hs
    | some res =>
        have hpx : res.record.m_tile.pixels
            = convert_tile_srgb_to_linear_rgb f
                ((fetch_texture scene key).load_tile key.m_tile_x key.m_tile_y).pixels := by
          simp only [TileSwapper.load, hcs, Option.some.injEq] at hload
          subst hload
          rfl
        exact ⟨res, rfl,
          fun i => by rw [hpx]; exact rgbAt_convert_srgb f _ i,
          fun i => by rw [hpx]; exact alphaAt_convert_srgb f _ i⟩
  · intro hcs
    cases hload : TileSwapper.load params f g scene key st with
    | none =>
        exfalso
        have hs := TileSwapper.load_isSome_of_valid params f g scene key st
          (Or.inl hcs)
        rw [hload] at hs
        simp at hs
    | some res =>
        have hpx : res.record.m_tile.pixels
            = ((fetch_texture scene key).load_tile key.m_tile_x key.m_tile_y).pixels := by
          simp only [TileSwapper.load, hcs, Option.some.injEq] at hload
          subst hload
          rfl
        exact ⟨res, rfl, hpx⟩

/-- Witness for C7: loading the demo sRGB texture decodes every RGB channel
with the supplied scalar transform and keeps the alpha channel of each
pixel. -/
theorem tile_swapper_load_srgb_decodes_rgb_preserves_alpha_witness :
    ((fetch_texture (demoScene ColorSpace.srgb) demoKey).color_space
        = ColorSpace.srgb)
    ∧ ∃ res, TileSwapper.load ⟨256, false, false, false⟩ (fun x : Nat => x * x) id
          (demoScene ColorSpace.srgb) demoKey ⟨0, 0⟩ = some res
        ∧ (∀ i, rgbAt res.record.m_tile.pixels i
            = (rgbAt ((fetch_texture (demoScene ColorSpace.srgb) demoKey).load_tile
                demoKey.m_tile_x demoKey.m_tile_y).pixels i).map
                  (mapTriple (fun x : Nat => x * x)))
        ∧ (∀ i, alphaAt res.record.m_tile.pixels i
            = alphaAt ((fetch_texture (demoScene ColorSpace.srgb) demoKey).load_tile
                demoKey.m_tile_x demoKey.m_tile_y).pixels i) :=
  ⟨rfl, (tile_swapper_load_srgb_decodes_rgb_preserves_alpha ⟨256, false, false, false⟩
    (fun x : Nat => x * x) id (demoScene ColorSpace.srgb) demoKey ⟨0, 0⟩).1 rfl⟩

/-- C10.  `TileSwapper::load` never rejects, blocks or evicts on account of
the configured maximum cache size: its record and accounting state do not
depend on `m_memory_limit` at all, `m_memory_size` grows by exactly the
tile's byte size even when the total exceeds the limit, and crossing the
limit has no effect inside `load` beyond the diagnostic log message emitted
only when `track_store_size` is enabled. -/
theorem tile_swapper_load_ignores_memory_limit {α : Type} (params : Parameters)
    (f : α → α) (g : α × α × α → α × α × α) (scene : Scene α) (key : TileKey)
    (st : TileSwapperState) (limit1 limit2 : Nat) :
    ((TileSwapper.load { params with m_memory_limit := limit1 } f g scene key st).map
        (fun res => (res.record, res.state))
      = (TileSwapper.load { params with m_memory_limit := limit2 } f g scene key st).map
        (fun res => (res.record, res.state)))
    ∧ (∀ res, TileSwapper.load params f g scene key st = some res →
        res.state.m_memory_size = st.m_memory_size + res.record.m_tile.memory_size)
    ∧ (params.m_track_store_size = false →
        ∀ res, TileSwapper.load params f g scene key st = some res →
          LogEvent.storeSizeAboveCapacity ∉ res.logs
          ∧ LogEvent.storeSizeBelowCapacity ∉ res.logs) := by
  refine ⟨?_, ?_, ?_⟩
  · cases hcs : (fetch_texture scene key).color_space <;>
      simp [TileSwapper.load, hcs]
  · intro res h
    exact (TileSwapper.load_some_spec params f g scene key st res h).2.2.1
  · intro htrack res h
    cases hcs : (fetch_texture scene key).color_space
    case spectral =>
      simp only [TileSwapper.load, hcs] at h
      exact Option.noConfusion h
    all_goals
      simp only [TileSwapper.load, hcs, htrack, Option.some.injEq,
        Bool.false_eq_true, if_false, List.append_nil] at h
    all_goals subst h
    all_goals constructor <;> (intro hmem; split at hmem <;> simp_all)

/-- Witness for C10: with a 3-byte memory limit, loading the 32-byte demo
tile still completes and adds exactly its size to `m_memory_size`. -/
theorem tile_swapper_load_ignores_memory_limit_witness :
    ∃ res, TileSwapper.load ⟨3, false, false, false⟩ (id : Nat → Nat) id
        (demoScene ColorSpace.linearRGB) demoKey ⟨0, 0⟩ = some res
      ∧ res.state.m_memory_size = 0 + res.record.m_tile.memory_size := by
  have h := (tile_swapper_load_ignores_memory_limit ⟨3, false, false, false⟩
      (id : Nat → Nat) id (demoScene ColorSpace.linearRGB) demoKey ⟨0, 0⟩ 3 3).2.1
  exact ⟨_, rfl, h _ rfl⟩

/-- C5.  On a cache miss, `TextureStore::get` invokes `TileSwapper::load` to
materialize the record (which the source returns with `m_owners = 0`) and
pins it on behalf of the requesting caller, so the record returned and
inserted into the cache has `m_owners = 1`. -/
theorem texture_store_get_miss_pins_to_one {α : Type} (params : Parameters)
    (f : α → α) (g : α × α × α → α × α × α) (scene : Scene α) (key : TileKey)
    (cache : List (TileKey × TileRecord α)) (sw : TileSwapperState)
    (hmiss : TileCache.find key cache = none)
    (hvalid : valid_color_space (fetch_texture scene key).color_space) :
    ∃ record cache2 sw2,
      TextureStore.get params f g scene key cache sw = some (record, cache2, sw2)
      ∧ record.m_owners = 1
      ∧ TileCache.find key cache2 = some record := by
  cases hload : TileSwapper.load params f g scene key sw with
  | none =>
      exfalso
      have hs := TileSwapper.load_isSome_of_valid params f g scene key sw hvalid
      rw [hload] at hs
      simp at hs
  | some res =>
      have h0 : res.record.m_owners = 0 :=
        (TileSwapper.load_some_spec params f g scene key sw res hload).1
      refine ⟨{ res.record with m_owners := res.record.m_owners + 1 },
        (key, { res.record with m_owners := res.record.m_owners + 1 }) :: cache,
        res.state, ?_, ?_, ?_⟩
      · simp [TextureStore.get, hmiss, hload]
      · simp [h0]
      · simp [TileCache.find]

/-- Witness for C5: a miss on the empty cache against the linear demo scene
returns a record pinned at exactly one owner and caches it. -/
theorem texture_store_get_miss_pins_to_one_witness :
    TileCache.find demoKey ([] : List (TileKey × TileRecord Nat)) = none
    ∧ ∃ record cache2 sw2,
        TextureStore.get ⟨256, false, false, false⟩ (id : Nat → Nat) id
            (demoScene ColorSpace.linearRGB) demoKey [] ⟨0, 0⟩
          = some (record, cache2, sw2)
        ∧ record.m_owners = 1
        ∧ TileCache.find demoKey cache2 = some record :=
  ⟨rfl, texture_store_get_miss_pins_to_one ⟨256, false, false, false⟩
    (id : Nat → Nat) id (demoScene ColorSpace.linearRGB) demoKey [] ⟨0, 0⟩
    rfl (Or.inl rfl)⟩

lemma residentSize_cons {α : Type} (kr : TileKey × TileRecord α)
    (l : List (TileKey × TileRecord α)) :
    residentSize (kr :: l) = kr.2.m_tile.memory_size + residentSize l := by
  simp [residentSize]

lemma residentSize_modifyRecordAt {α : Type} (f : TileRecord α → TileRecord α)
    (hf : ∀ r, (f r).m_tile.memory_size = r.m_tile.memory_size) :
    ∀ (l : List (TileKey × TileRecord α)) (i : Nat),
      residentSize (modifyRecordAt f l i) = residentSize l := by
  intro l
  induction l with
  | nil => intro i; rfl
  | cons kr rest ih =>
      intro i
      cases i with
      | zero => simp [modifyRecordAt, residentSize_cons, hf]
      | succ n => simp [modifyRecordAt, residentSize_cons, ih n]

lemma evictAt_cases {α : Type} (params : Parameters) :
    ∀ (l : List (TileKey × TileRecord α)) (i : Nat) (sw : TileSwapperState),
      evictAt params l i sw = (sw, l)
      ∨ ∃ s, (evictAt params l i sw).1
            = { m_memory_size := sw.m_memory_size - s
                m_peak_memory_size := sw.m_peak_memory_size }
          ∧ residentSize l = residentSize (evictAt params l i sw).2 + s := by
  intro l
  induction l with
  | nil => intro i sw; left; rfl
  | cons kr rest ih =>
      intro i sw
      cases i with
      | zero =>
          by_cases h : kr.2.m_owners > 0
          · left
            simp [evictAt, TileSwapper.unload, h]
          · right
            refine ⟨kr.2.m_tile.memory_size, ?_, ?_⟩
            · simp [evictAt, TileSwapper.unload, h]
            · simp [evictAt, TileSwapper.unload, h, residentSize_cons]
              omega
      | succ n =>
          rcases ih n sw with h | ⟨s, h1, h2⟩
          · left
            simp [evictAt, h]
          · right
            refine ⟨s, ?_, ?_⟩
            · simp only [evictAt]
              exact h1
            · simp only [evictAt, residentSize_cons]
              omega

lemma storeStep_memory_inv {α : Type} (params : Parameters) (f : α → α)
    (g : α × α × α → α × α × α) (scene : Scene α) (st : TextureStoreState α)
    (op : StoreOp) (hst : st.swapper.m_memory_size = residentSize st.resident) :
    (storeStep params f g scene st op).swapper.m_memory_size
      = residentSize (storeStep params f g scene st op).resident := by
  cases op with
  | loadOp key =>
      simp only [storeStep]
      cases hload : TileSwapper.load params f g scene key st.swapper with
      | none => exact hst
      | some res =>
          have hs := TileSwapper.load_some_spec params f g scene key st.swapper res hload
          simp [residentSize_cons, hs.2.2.1, hst]
          omega
  | pinOp i =>
      simp only [storeStep]
      rw [residentSize_modifyRecordAt
        (fun r => { r with m_owners := r.m_owners + 1 }) (fun r => rfl)]
      exact hst
  | unpinOp i =>
      simp only [storeStep]
      rw [residentSize_modifyRecordAt
        (fun r => { r with m_owners := r.m_owners - 1 }) (fun r => rfl)]
      exact hst
  | evictOp i =>
      simp only [storeStep]
      rcases evictAt_cases params st.resident i st.swapper with h | ⟨s, h1, h2⟩
      · rw [h]
        exact hst
      · have hm : (evictAt params st.resident i st.swapper).1.m_memory_size
            = st.swapper.m_memory_size - s := by rw [h1]
        omega

lemma storeStep_peak {α : Type} (params : Parameters) (f : α → α)
    (g : α × α × α → α × α × α) (scene : Scene α) (st : TextureStoreState α)
    (op : StoreOp)
    (hpk : st.swapper.m_memory_size ≤ st.swapper.m_peak_memory_size) :
    (storeStep params f g scene st op).swapper.m_peak_memory_size
      = max st.swapper.m_peak_memory_size
          (storeStep params f g scene st op).swapper.m_memory_size
    ∧ (storeStep params f g scene st op).swapper.m_memory_size
        ≤ (storeStep params f g scene st op).swapper.m_peak_memory_size := by
  cases op with
  | loadOp key =>
      simp only [storeStep]
      cases hload : TileSwapper.load params f g scene key st.swapper with
      | none => exact ⟨(Nat.max_eq_left hpk).symm, hpk⟩
      | some res =>
          have hs := TileSwapper.load_some_spec params f g scene key st.swapper res hload
          refine ⟨hs.2.2.2, ?_⟩
          rw [hs.2.2.2]
          exact Nat.le_max_right _ _
  | pinOp i => exact ⟨(Nat.max_eq_left hpk).symm, hpk⟩
  | unpinOp i => exact ⟨(Nat.max_eq_left hpk).symm, hpk⟩
  | evictOp i =>
      simp only [storeStep]
      rcases evictAt_cases params st.resident i st.swapper with h | ⟨s, h1, h2⟩
      · rw [h]
        exact ⟨(Nat.max_eq_left hpk).symm, hpk⟩
      · have hm : (evictAt params st.resident i st.swapper).1.m_memory_size
            = st.swapper.m_memory_size - s := by rw [h1]
        have hp : (evictAt params st.resident i st.swapper).1.m_peak_memory_size
            = st.swapper.m_peak_memory_size := by rw [h1]
        rw [hm, hp]
        constructor
        · have hle : st.swapper.m_memory_size - s ≤ st.swapper.m_peak_memory_size := by
            omega
          exact (Nat.max_eq_left hle).symm
        · omega

lemma runStore_memory_inv {α : Type} (params : Parameters) (f : α → α)
    (g : α × α × α → α × α × α) (scene : Scene α) :
    ∀ (ops : List StoreOp) (st : TextureStoreState α),
      st.swapper.m_memory_size = residentSize st.resident →
      (runStore params f g scene st ops).swapper.m_memory_size
        = residentSize (runStore params f g scene st ops).resident := by
  intro ops
  induction ops with
  | nil => intro st hst; exact hst
  | cons op ops ih =>
      intro st hst
      exact ih _ (storeStep_memory_inv params f g scene st op hst)

lemma runStore_peak_trace {α : Type} (params : Parameters) (f : α → α)
    (g : α × α × α → α × α × α) (scene : Scene α) :
    ∀ (ops : List StoreOp) (st : TextureStoreState α),
      st.swapper.m_memory_size ≤ st.swapper.m_peak_memory_size →
      (runStore params f g scene st ops).swapper.m_peak_memory_size
        = (memorySizeTrace params f g scene st ops).foldl max
            st.swapper.m_peak_memory_size := by
  intro ops
  induction ops with
  | nil => intro st hpk; rfl
  | cons op ops ih =>
      intro st hpk
      obtain ⟨hp1, hp2⟩ := storeStep_peak params f g scene st op hpk
      simp only [runStore, memorySizeTrace, List.foldl_cons]
      rw [← hp1]
      exact ih _ hp2

/-- C4.  Memory accounting: starting from the freshly constructed store,
after any interleaving of loads, pins, releases and eviction attempts,
`m_memory_size` equals the sum of the byte sizes of the currently resident
tiles (so it can never go negative), `m_peak_memory_size` equals the running
maximum of `m_memory_size` over the whole interleaving; moreover every
successful load grows `m_memory_size` by exactly the loaded tile's byte size
and raises the peak to the new maximum, and every successful eviction
shrinks it by exactly the evicted tile's byte size. -/
theorem texture_store_memory_accounting {α : Type} (params : Parameters)
    (f : α → α) (g : α × α × α → α × α × α) (scene : Scene α)
    (ops : List StoreOp) :
    ((runStore params f g scene initialStoreState ops).swapper.m_memory_size
        = residentSize (runStore params f g scene initialStoreState ops).resident)
    ∧ ((runStore params f g scene initialStoreState ops).swapper.m_peak_memory_size
        = (memorySizeTrace params f g scene initialStoreState ops).foldl max 0)
    ∧ (∀ (sw : TileSwapperState) (key : TileKey) (res : LoadResult α),
        TileSwapper.load params f g scene key sw = some res →
        res.state.m_memory_size = sw.m_memory_size + res.record.m_tile.memory_size
        ∧ res.state.m_peak_memory_size
            = max sw.m_peak_memory_size res.state.m_memory_size)
    ∧ (∀ (sw : TileSwapperState) (key : TileKey) (record : TileRecord α),
        record.m_owners = 0 → record.m_tile.memory_size ≤ sw.m_memory_size →
        (TileSwapper.unload params key record sw).ok = true
        ∧ (TileSwapper.unload params key record sw).state.m_memory_size
            + record.m_tile.memory_size = sw.m_memory_size) := by
  refine ⟨runStore_memory_inv params f g scene ops initialStoreState rfl,
    runStore_peak_trace params f g scene ops initialStoreState (Nat.le_refl 0),
    fun sw key res h => ?_, fun sw key record h0 hle => ?_⟩
  · have hs := TileSwapper.load_some_spec params f g scene key sw res h
    exact ⟨hs.2.2.1, hs.2.2.2⟩
  · simp [TileSwapper.unload, h0]
    omega

/-- Witness for C4: evicting an unpinned 5-byte record from a store holding
7 resident bytes succeeds and restores the 5 bytes difference exactly. -/
theorem texture_store_memory_accounting_witness :
    (TileSwapper.unload ⟨256, false, false, false⟩ demoKey
        (⟨⟨TilePixels.rgba [], 5⟩, 0⟩ : TileRecord Nat) ⟨7, 9⟩).ok = true
    ∧ (TileSwapper.unload ⟨256, false, false, false⟩ demoKey
        (⟨⟨TilePixels.rgba [], 5⟩, 0⟩ : TileRecord Nat) ⟨7, 9⟩).state.m_memory_size
        + 5 = 7 := by
  have h := (texture_store_memory_accounting ⟨256, false, false, false⟩
      (id : Nat → Nat) id (demoScene ColorSpace.linearRGB) []).2.2.2
      ⟨7, 9⟩ demoKey (⟨⟨TilePixels.rgba [], 5⟩, 0⟩ : TileRecord Nat) rfl (by decide)
  exact ⟨h.1, h.2⟩

end Appleseed
